import Mathlib

/-!
Shallow embedding of the recetario-back recipe API (Express + Supabase).

The JavaScript controllers, middleware and response formatters are translated
into executable Lean definitions.  The external Supabase store is modelled as
an explicit `Store` value holding the rows of each table; every store
operation used by the controllers (filtered select, single-row select, batch
insert, update-by-filter, delete-by-filter with cascade, range select with
exact count) is given the row-level semantics the code relies on, with rows
returned in stored (insertion) order.  Store failures that the code handles
are injected through explicit fault flags.
-/

namespace Recetario

/-! ### Response envelope builder — src/utils/responseFormatter.js -/

structure SuccessEnvelope (α : Type) where
  status : String
  statusCode : Nat
  message : String
  data : α
deriving DecidableEq

/-- `formatSuccess(data, message, statusCode = 200)`. -/
def formatSuccess {α : Type} (data : α) (message : String) (statusCode : Nat) :
    SuccessEnvelope α :=
  { status := "success", statusCode := statusCode, message := message, data := data }

structure ErrorEnvelope where
  status : String
  statusCode : Nat
  message : String
  error : Option String
deriving DecidableEq

/-- `formatError(message, statusCode = 500, error = null)`: the detail field is
attached only when `error` is truthy and `process.env.NODE_ENV === "development"`. -/
def formatError (message : String) (statusCode : Nat) (error : Option String)
    (nodeEnv : String) : ErrorEnvelope :=
  match error with
  | some e =>
    if nodeEnv == "development" then
      { status := "error", statusCode := statusCode, message := message, error := some e }
    else
      { status := "error", statusCode := statusCode, message := message, error := none }
  | none => { status := "error", statusCode := statusCode, message := message, error := none }

structure PaginationEnvelope (α : Type) where
  status : String
  statusCode : Nat
  message : String
  results : Nat
  totalItems : Nat
  currentPage : Nat
  totalPages : Nat
  data : List α
deriving DecidableEq

/-- `formatPagination(data, total, page, limit, message)`.
`Math.ceil(total / limit)` over naturals with `limit > 0` is `(total + limit - 1) / limit`. -/
def formatPagination {α : Type} (data : List α) (total : Nat) (page : Nat) (limit : Nat)
    (message : String) : PaginationEnvelope α :=
  { status := "success", statusCode := 200, message := message,
    results := data.length, totalItems := total, currentPage := page,
    totalPages := (total + limit - 1) / limit, data := data }

/-! ### Outer error-handling middleware — src/middleware/errorHandler.js -/

structure HandlerBody where
  status : String
  message : String
  error : Option String
deriving DecidableEq

/-- `errorHandler(err, req, res, next)`: responds with status `err.statusCode || 500`
and a body whose `error` field is `err.stack` in development mode and absent
(undefined, dropped from the JSON) otherwise. -/
def errorHandler (nodeEnv : String) (errStatusCode : Option Nat) (errMessage : Option String)
    (errStack : Option String) : Nat × HandlerBody :=
  let statusCode := match errStatusCode with
    | some c => if c == 0 then 500 else c
    | none => 500
  let message := match errMessage with
    | some m => if m == "" then "Internal server error" else m
    | none => "Internal server error"
  (statusCode,
   { status := "error", message := message,
     error := if nodeEnv == "development" then errStack else none })

/-! ### Data model: table rows of the Supabase store -/

structure RecipeRow where
  id : Nat
  name : String
  description : String
  prep_time : Int
  servings : Int
  difficulty : Int
  calories : Option Int
  main_image_url : Option String
  user_id : String
  created_at : String
  is_public : Bool
deriving DecidableEq

structure IngredientRow where
  recipe_id : Nat
  name : String
  quantity : Option String
  unit : Option String
  optional : Bool
  order : Option Nat
deriving DecidableEq

structure StepRow where
  recipe_id : Nat
  step_number : Option Nat
  description : String
  tip : Option String
  image_url : Option String
deriving DecidableEq

structure TagRow where
  id : Nat
  name : String
  color : String
deriving DecidableEq

structure RecipeTagRow where
  recipe_id : Nat
  tag_id : Nat
deriving DecidableEq

/-- The visible state of the Supabase store: one list per table, rows kept in
insertion order, plus the next generated recipe identity. -/
structure Store where
  recipes : List RecipeRow
  ingredients : List IngredientRow
  steps : List StepRow
  recipe_tags : List RecipeTagRow
  tags : List TagRow
  nextId : Nat
deriving DecidableEq

/-- One entry of the `recipe_tags (tag_id, tags (...))` join expansion. -/
structure TagJoin where
  tag_id : Nat
  tag : Option TagRow
deriving DecidableEq

/-- The nested recipe aggregate produced by the
`recipes.select("*, ingredients (...), steps (...), recipe_tags (tag_id, tags (...))")`
query.  The store returns joined dependent rows in stored order. -/
structure Aggregate where
  recipe : RecipeRow
  ingredients : List IngredientRow
  steps : List StepRow
  recipe_tags : List TagJoin
deriving DecidableEq

/-- Joined single-recipe select used by `getRecipeById`, `createRecipe` (re-fetch)
and `updateRecipe` (re-fetch): `none` models the `.single()` zero-row outcome,
which the store reports with error code `PGRST116`. -/
def fetchAggregate (store : Store) (id : Nat) : Option Aggregate :=
  match store.recipes.find? (fun r => r.id == id) with
  | some r =>
    some { recipe := r
           ingredients := store.ingredients.filter (fun i => i.recipe_id == id)
           steps := store.steps.filter (fun s => s.recipe_id == id)
           recipe_tags := (store.recipe_tags.filter (fun t => t.recipe_id == id)).map
             (fun rt => { tag_id := rt.tag_id
                          tag := store.tags.find? (fun t => t.id == rt.tag_id) }) }
  | none => none

/-- `DELETE FROM recipes WHERE id = ?` with the store's `ON DELETE CASCADE`
removing all dependent rows of that recipe. -/
def deleteCascade (store : Store) (id : Nat) : Store :=
  { store with
    recipes := store.recipes.filter (fun r => r.id != id)
    ingredients := store.ingredients.filter (fun i => i.recipe_id != id)
    steps := store.steps.filter (fun s => s.recipe_id != id)
    recipe_tags := store.recipe_tags.filter (fun t => t.recipe_id != id) }

/-! ### Request payloads (JSON bodies) -/

/-- Strip leading whitespace characters from a character list. -/
def dropLeadingWs : List Char → List Char
  | [] => []
  | c :: cs => if c.isWhitespace then dropLeadingWs cs else c :: cs

/-- JavaScript `s.trim()`: remove leading and trailing whitespace. -/
def jsTrim (s : String) : String :=
  ⟨(dropLeadingWs (dropLeadingWs s.data).reverse).reverse⟩

/-- JavaScript `x || null` on an optional string field: the empty string is falsy. -/
def jsOrNone (v : Option String) : Option String :=
  match v with
  | some s => if s == "" then none else some s
  | none => none

structure IngredientInput where
  name : String
  quantity : Option String
  unit : Option String
  optional : Option Bool
  order : Option Nat
deriving DecidableEq

structure StepInput where
  step_number : Option Nat
  description : String
  tip : Option String
  imageUrl : Option String
deriving DecidableEq

structure TagInput where
  id : Nat
deriving DecidableEq

structure CreateBody where
  name : Option String
  description : Option String
  prepTime : Option Int
  servings : Option Int
  difficulty : Option Int
  calories : Option Int
  mainImageURL : Option String
  ingredients : Option (List IngredientInput)
  steps : Option (List StepInput)
  tags : Option (List TagInput)
  isPublic : Option Bool
  created_at : Option String
deriving DecidableEq

/-! ### createRecipe validation chain (source order) -/

/-- `!name || !name.trim()`. -/
def nameMissing (b : CreateBody) : Bool :=
  match b.name with
  | none => true
  | some n => n == "" || jsTrim n == ""

/-- `!prepTime || prepTime < 1` (the numeric value `0` is falsy). -/
def prepTimeMissing (b : CreateBody) : Bool :=
  match b.prepTime with
  | none => true
  | some t => t == 0 || decide (t < 1)

/-- `!servings || servings < 1`. -/
def servingsMissing (b : CreateBody) : Bool :=
  match b.servings with
  | none => true
  | some s => s == 0 || decide (s < 1)

/-- `!difficulty || difficulty < 1 || difficulty > 5`. -/
def difficultyMissing (b : CreateBody) : Bool :=
  match b.difficulty with
  | none => true
  | some d => d == 0 || decide (d < 1) || decide (d > 5)

/-- `!ingredients || !Array.isArray(ingredients) || ingredients.length === 0`
(`none` covers both a missing field and a non-array value). -/
def ingredientsMissing (b : CreateBody) : Bool :=
  match b.ingredients with
  | none => true
  | some l => l.isEmpty

/-- `!steps || !Array.isArray(steps) || steps.length === 0`. -/
def stepsMissing (b : CreateBody) : Bool :=
  match b.steps with
  | none => true
  | some l => l.isEmpty

/-- `isPublic === undefined || isPublic === null`. -/
def isPublicMissing (b : CreateBody) : Bool :=
  b.isPublic.isNone

/-- The `createRecipe` validation chain, returning the first failing message. -/
def checkValidation (b : CreateBody) : Option String :=
  if nameMissing b then some "Name is required"
  else if prepTimeMissing b then some "Valid preparation time is required"
  else if servingsMissing b then some "Valid number of servings is required"
  else if difficultyMissing b then some "Difficulty must be between 1 and 5"
  else if ingredientsMissing b then some "At least one ingredient is required"
  else if stepsMissing b then some "At least one step is required"
  else if isPublicMissing b then some "isPublic is required"
  else none

/-! ### Row construction for inserts -/

/-- The `newRecipe` object built in `createRecipe` (after validation passed). -/
def newRecipeRow (store : Store) (userId : String) (nowIso : String) (b : CreateBody) :
    RecipeRow :=
  { id := store.nextId
    name := jsTrim (b.name.getD "")
    description := jsTrim (b.description.getD "")
    prep_time := b.prepTime.getD 0
    servings := b.servings.getD 0
    difficulty := b.difficulty.getD 0
    calories := match b.calories with
      | some c => if c == 0 then none else some c
      | none => none
    main_image_url := jsOrNone b.mainImageURL
    user_id := userId
    created_at := match b.created_at with
      | some t => if t == "" then nowIso else t
      | none => nowIso
    is_public := b.isPublic.getD false }

/-- `ingredients.map((ingredient, index) => ({...}))` from both `createRecipe`
and `updateRecipe`: `order: ingredient.order || index + 1` (`0` is falsy). -/
def ingredientsToInsert (recipeId : Nat) (ings : List IngredientInput) :
    List IngredientRow :=
  ings.mapIdx (fun index i =>
    { recipe_id := recipeId
      name := i.name
      quantity := jsOrNone i.quantity
      unit := jsOrNone i.unit
      optional := i.optional.getD false
      order := some (match i.order with
        | some o => if o == 0 then index + 1 else o
        | none => index + 1) })

/-- `steps.map((step, index) => ({...}))` from both `createRecipe` and
`updateRecipe`: `step_number: step.step_number || index + 1` (`0` is falsy). -/
def stepsToInsert (recipeId : Nat) (ss : List StepInput) : List StepRow :=
  ss.mapIdx (fun index s =>
    { recipe_id := recipeId
      step_number := some (match s.step_number with
        | some n => if n == 0 then index + 1 else n
        | none => index + 1)
      description := s.description
      tip := jsOrNone s.tip
      image_url := jsOrNone s.imageUrl })

/-- `tags.map((tag) => ({ recipe_id, tag_id: tag.id }))`. -/
def tagsToInsert (recipeId : Nat) (ts : List TagInput) : List RecipeTagRow :=
  ts.map (fun t => { recipe_id := recipeId, tag_id := t.id })

/-! ### Fault injection for the create workflow -/

/-- Which store operations of the create workflow report an error. -/
structure Faults where
  recipeInsertFails : Bool
  ingredientsInsertFails : Bool
  stepsInsertFails : Bool
  tagsInsertFails : Bool
  refetchFails : Bool
  rollbackDeleteFails : Bool
deriving DecidableEq

def noFaults : Faults :=
  { recipeInsertFails := false, ingredientsInsertFails := false, stepsInsertFails := false,
    tagsInsertFails := false, refetchFails := false, rollbackDeleteFails := false }

/-- The store error thrown to the outer catch (and on to `next(error)`). -/
inductive DbErr where
  | recipeInsertErr
  | ingredientsInsertErr
  | stepsInsertErr
  | tagsInsertErr
  | refetchErr
deriving DecidableEq

/-- Outcome of a controller invocation: a JSON response with its HTTP status,
or an error thrown to the outer error-handling middleware. -/
inductive EndpointResult (α : Type) where
  | ok (statusCode : Nat) (body : SuccessEnvelope α)
  | err (statusCode : Nat) (body : ErrorEnvelope)
  | thrown (e : DbErr)
deriving DecidableEq

/-- The compensating `recipes.delete().eq("id", recipeId)` in the inner catch of
`createRecipe`; its own returned error is ignored by the code, so on failure
the store is simply left as it was. -/
def rollbackCreate (faults : Faults) (store : Store) (recipeId : Nat) : Store :=
  if faults.rollbackDeleteFails then store else deleteCascade store recipeId

/-! ### createRecipe — the authenticated-controller version -/

/-- `createRecipe(req, res, next)`.  After validation, the parent recipe row is
inserted (a failed batch insert adds nothing); then ingredients, steps and tag
associations are inserted in order (the non-empty guards on ingredients and
steps always hold here, since validation has rejected empty lists); any failure
in that phase, or in the final re-fetch, triggers the compensating delete and
rethrows the original error. -/
def createRecipe (env : String) (faults : Faults) (store : Store) (userId : String)
    (nowIso : String) (b : CreateBody) : EndpointResult Aggregate × Store :=
  match checkValidation b with
  | some msg => (.err 400 (formatError msg 400 none env), store)
  | none =>
    if faults.recipeInsertFails then (.thrown .recipeInsertErr, store)
    else
      let recipeRow := newRecipeRow store userId nowIso b
      let recipeId := recipeRow.id
      let store1 : Store :=
        { store with recipes := store.recipes ++ [recipeRow], nextId := store.nextId + 1 }
      if faults.ingredientsInsertFails then
        (.thrown .ingredientsInsertErr, rollbackCreate faults store1 recipeId)
      else
        let store2 : Store :=
          { store1 with
            ingredients := store1.ingredients ++ ingredientsToInsert recipeId (b.ingredients.getD []) }
        if faults.stepsInsertFails then
          (.thrown .stepsInsertErr, rollbackCreate faults store2 recipeId)
        else
          let store3 : Store :=
            { store2 with steps := store2.steps ++ stepsToInsert recipeId (b.steps.getD []) }
          let finish : Store → EndpointResult Aggregate × Store := fun st =>
            if faults.refetchFails then (.thrown .refetchErr, rollbackCreate faults st recipeId)
            else
              match fetchAggregate st recipeId with
              | some agg =>
                (.ok 201 (formatSuccess agg "Recipe created successfully" 201), st)
              | none => (.thrown .refetchErr, rollbackCreate faults st recipeId)
          match b.tags with
          | some ts =>
            if ts.isEmpty then finish store3
            else if faults.tagsInsertFails then
              (.thrown .tagsInsertErr, rollbackCreate faults store3 recipeId)
            else
              finish { store3 with recipe_tags := store3.recipe_tags ++ tagsToInsert recipeId ts }
          | none => finish store3

/-! ### Read paths: getRecipeById (with presentation sort) and getAllRecipes -/

/-- The sort key of `a.order || 0` (null / missing treated as 0). -/
def ingOrderKey (i : IngredientRow) : Nat := i.order.getD 0

/-- The sort key of `a.step_number || 0`. -/
def stepNumberKey (s : StepRow) : Nat := s.step_number.getD 0

/-- The two in-place `.sort(...)` calls of `getRecipeById`: a stable sort of
`ingredients` by `(a.order || 0)` and of `steps` by `(a.step_number || 0)`. -/
def sortAggregate (agg : Aggregate) : Aggregate :=
  { agg with
    ingredients := agg.ingredients.mergeSort (fun a b => decide (ingOrderKey a ≤ ingOrderKey b))
    steps := agg.steps.mergeSort (fun a b => decide (stepNumberKey a ≤ stepNumberKey b)) }

/-- `getRecipeById(req, res, next)` (read-only; the `!id` guard is outside the
model, since the route always carries an identity).  The `.single()` zero-row
error code `PGRST116` is answered with 404. -/
def getRecipeById (env : String) (store : Store) (id : Nat) : EndpointResult Aggregate :=
  match fetchAggregate store id with
  | none => .err 404 (formatError "Recipe not found" 404 none env)
  | some agg => .ok 200 (formatSuccess (sortAggregate agg) "Recipe retrieved successfully" 200)

/-- `.range(start, stop)`: the inclusive zero-based row window `[start, stop]`. -/
def rangeSlice {α : Type} (rows : List α) (start stop : Nat) : List α :=
  (rows.drop start).take (stop + 1 - start)

/-- `getAllRecipes(req, res, next)` (read-only): `parseInt(...) || 1` and
`parseInt(...) || 10` defaulting (a missing or non-numeric query parameter is
`none`; the parsed value `0` is falsy), then the `.range` window plus the
exact count, shaped by `formatPagination`. -/
def getAllRecipes (store : Store) (pageQ limitQ : Option Nat) : PaginationEnvelope RecipeRow :=
  let page := match pageQ with
    | some p => if p == 0 then 1 else p
    | none => 1
  let limit := match limitQ with
    | some l => if l == 0 then 10 else l
    | none => 10
  let start := (page - 1) * limit
  let stop := page * limit - 1
  formatPagination (rangeSlice store.recipes start stop) store.recipes.length page limit
    "Recipes retrieved successfully"

/-! ### updateRecipe -/

structure UpdateBody where
  name : Option String
  description : Option String
  prepTime : Option Int
  servings : Option Int
  difficulty : Option Int
  calories : Option (Option Int)
  mainImageURL : Option (Option String)
  ingredients : Option (List IngredientInput)
  steps : Option (List StepInput)
  tags : Option (List TagInput)
  isPublic : Option Bool
deriving DecidableEq

/-- The `updatedData` object of `updateRecipe`: a field is `some` exactly when
the corresponding `if (...)` assigned it. -/
structure UpdatedData where
  name : Option String
  description : Option String
  prep_time : Option Int
  servings : Option Int
  difficulty : Option Int
  calories : Option (Option Int)
  main_image_url : Option (Option String)
  is_public : Option Bool
deriving DecidableEq

/-- The `updatedData` construction: `name`, `prepTime`, `servings`, `difficulty`
are guarded by truthiness (`if (name)`, `if (prepTime)`, ...), while
`description`, `calories`, `mainImageURL`, `isPublic` are guarded by presence
(`!== undefined`).  `calories` is additionally coerced by `calories ? parseInt(calories) : null`. -/
def buildUpdatedData (b : UpdateBody) : UpdatedData :=
  { name := match b.name with
      | some n => if n == "" then none else some (jsTrim n)
      | none => none
    description := b.description.map (fun d => jsTrim d)
    prep_time := match b.prepTime with
      | some t => if t == 0 then none else some t
      | none => none
    servings := match b.servings with
      | some s => if s == 0 then none else some s
      | none => none
    difficulty := match b.difficulty with
      | some d => if d == 0 then none else some d
      | none => none
    calories := match b.calories with
      | some c => some (match c with
          | some v => if v == 0 then none else some v
          | none => none)
      | none => none
    main_image_url := b.mainImageURL
    is_public := b.isPublic }

/-- `Object.keys(updatedData).length > 0`. -/
def hasUpdates (u : UpdatedData) : Bool :=
  u.name.isSome || u.description.isSome || u.prep_time.isSome || u.servings.isSome ||
  u.difficulty.isSome || u.calories.isSome || u.main_image_url.isSome || u.is_public.isSome

/-- `recipes.update(updatedData).eq("id", id)` applied to one matching row:
only the assigned fields change. -/
def applyUpdatedData (u : UpdatedData) (r : RecipeRow) : RecipeRow :=
  { r with
    name := u.name.getD r.name
    description := u.description.getD r.description
    prep_time := u.prep_time.getD r.prep_time
    servings := u.servings.getD r.servings
    difficulty := u.difficulty.getD r.difficulty
    calories := u.calories.getD r.calories
    main_image_url := u.main_image_url.getD r.main_image_url
    is_public := u.is_public.getD r.is_public }

/-- `if (Object.keys(updatedData).length > 0) { recipes.update(...).eq("id", id) }`:
the scalar-update phase of `updateRecipe`. -/
def updateScalarsPhase (id : Nat) (b : UpdateBody) (st : Store) : Store :=
  let u := buildUpdatedData b
  if hasUpdates u then
    { st with
      recipes := st.recipes.map (fun r => if r.id == id then applyUpdatedData u r else r) }
  else st

/-- `if (ingredients && Array.isArray(ingredients)) { delete-all; insert if non-empty }`:
the ingredient-replacement phase of `updateRecipe`. -/
def updateIngredientsPhase (id : Nat) (b : UpdateBody) (st : Store) : Store :=
  match b.ingredients with
  | some l =>
    let deleted : Store :=
      { st with ingredients := st.ingredients.filter (fun i => i.recipe_id != id) }
    if l.isEmpty then deleted
    else { deleted with ingredients := deleted.ingredients ++ ingredientsToInsert id l }
  | none => st

/-- `if (steps && Array.isArray(steps)) { delete-all; insert if non-empty }`. -/
def updateStepsPhase (id : Nat) (b : UpdateBody) (st : Store) : Store :=
  match b.steps with
  | some l =>
    let deleted : Store :=
      { st with steps := st.steps.filter (fun s => s.recipe_id != id) }
    if l.isEmpty then deleted
    else { deleted with steps := deleted.steps ++ stepsToInsert id l }
  | none => st

/-- `if (tags && Array.isArray(tags)) { delete-all; insert if non-empty }`. -/
def updateTagsPhase (id : Nat) (b : UpdateBody) (st : Store) : Store :=
  match b.tags with
  | some l =>
    let deleted : Store :=
      { st with recipe_tags := st.recipe_tags.filter (fun t => t.recipe_id != id) }
    if l.isEmpty then deleted
    else { deleted with recipe_tags := deleted.recipe_tags ++ tagsToInsert id l }
  | none => st

/-- `updateRecipe(req, res, next)`: existence check (`PGRST116` answered with
404), scalar update when `updatedData` is non-empty, then wholesale
delete-and-reinsert of each dependent collection supplied as an array (an
empty supplied array only deletes; an absent collection is not touched),
then the re-fetch of the aggregate.  The store operations of the update path
are modelled as succeeding (the code merely rethrows their errors). -/
def updateRecipe (env : String) (store : Store) (id : Nat) (b : UpdateBody) :
    EndpointResult Aggregate × Store :=
  match store.recipes.find? (fun r => r.id == id) with
  | none => (.err 404 (formatError "Recipe not found" 404 none env), store)
  | some _ =>
    let store4 : Store :=
      updateTagsPhase id b (updateStepsPhase id b (updateIngredientsPhase id b
        (updateScalarsPhase id b store)))
    let result : EndpointResult Aggregate :=
      match fetchAggregate store4 id with
      | some agg => .ok 200 (formatSuccess agg "Recipe updated successfully" 200)
      | none => .thrown .refetchErr
    (result, store4)

/-! ### deleteRecipe -/

/-- `deleteRecipe(req, res, next)`: existence check via `.single()` whose
zero-row error code `PGRST116` is answered with 404 (not rethrown as an
upstream failure); on success the recipe row is deleted, cascade removing the
dependents, and an empty success payload (`formatSuccess(null, ...)`, 200) is
returned. -/
def deleteRecipe (env : String) (store : Store) (id : Nat) :
    EndpointResult (Option Aggregate) × Store :=
  match store.recipes.find? (fun r => r.id == id) with
  | none => (.err 404 (formatError "Recipe not found" 404 none env), store)
  | some _ =>
    (.ok 200 (formatSuccess (none : Option Aggregate) "Recipe deleted successfully" 200),
     deleteCascade store id)

/-! ### Auth middleware — src/middleware/auth.js — and the recipe route table -/

structure AuthReq where
  authorization : Option String
deriving DecidableEq

structure UserCtx where
  userId : String
  token : String
deriving DecidableEq

/-- What an auth middleware does with a request: answer 401 immediately (the
route handler never runs), or call `next()` with the identity it attached. -/
inductive AuthOutcome where
  | reject (statusCode : Nat) (errorLabel : String) (message : String)
  | proceed (user : Option UserCtx)
deriving DecidableEq

/-- `verifyAuth`: the collaborator `supabase.auth.getUser` is abstracted as a
function returning the verified user id, or `none` when it reports an error or
no user.  `authHeader.replace("Bearer ", "")` removes the leading marker, which
under the `startsWith` guard is exactly dropping its 7 characters. -/
def verifyAuth (getUser : String → Option String) (req : AuthReq) : AuthOutcome :=
  match req.authorization with
  | none => .reject 401 "Unauthorized" "Auth token missing or malformed"
  | some h =>
    if h.startsWith "Bearer " then
      let token := h.drop 7
      match getUser token with
      | some uid => .proceed (some { userId := uid, token := token })
      | none => .reject 401 "Invalid token" "Token is invalid or expired"
    else .reject 401 "Unauthorized" "Auth token missing or malformed"

/-- `optionalAuth`: a missing, malformed or unverifiable credential is ignored
and the request proceeds with no identity attached. -/
def optionalAuth (getUser : String → Option String) (req : AuthReq) : AuthOutcome :=
  match req.authorization with
  | some h =>
    if h.startsWith "Bearer " then
      let token := h.drop 7
      match getUser token with
      | some uid => .proceed (some { userId := uid, token := token })
      | none => .proceed none
    else .proceed none
  | none => .proceed none

inductive AuthKind where
  | required
  | optional
deriving DecidableEq

structure Route where
  method : String
  path : String
  auth : AuthKind
deriving DecidableEq

/-- The route table of src/routes/recipeRoutes.js: reads use `optionalAuth`,
writes use `verifyAuth`. -/
def recipeRoutes : List Route :=
  [ { method := "GET", path := "/", auth := .optional },
    { method := "GET", path := "/:id", auth := .optional },
    { method := "POST", path := "/", auth := .required },
    { method := "PUT", path := "/:id", auth := .required },
    { method := "DELETE", path := "/:id", auth := .required } ]

/-- Running the auth middleware a route was mounted with. -/
def runAuthMiddleware (getUser : String → Option String) (k : AuthKind) (req : AuthReq) :
    AuthOutcome :=
  match k with
  | .required => verifyAuth getUser req
  | .optional => optionalAuth getUser req

/-- A bearer credential that is absent, malformed, or fails verification. -/
def badCredential (getUser : String → Option String) (req : AuthReq) : Prop :=
  match req.authorization with
  | none => True
  | some h => ¬ (h.startsWith "Bearer ") ∨ getUser (h.drop 7) = none

/-! ### Concrete fixtures for witnesses and counterexamples -/

def emptyStore : Store :=
  { recipes := [], ingredients := [], steps := [], recipe_tags := [], tags := [], nextId := 1 }

def sampleIngredient (nm : String) (o : Option Nat) : IngredientInput :=
  { name := nm, quantity := none, unit := none, optional := none, order := o }

def sampleStep (d : String) (n : Option Nat) : StepInput :=
  { step_number := n, description := d, tip := none, imageUrl := none }

/-- A valid creation payload whose two ingredients carry the explicit display
orders 2 then 1 (i.e. supplied in descending order). -/
def sampleBody : CreateBody :=
  { name := some "Tortilla", description := none, prepTime := some 10, servings := some 2,
    difficulty := some 3, calories := none, mainImageURL := none,
    ingredients := some [sampleIngredient "Egg" (some 2), sampleIngredient "Potato" (some 1)],
    steps := some [sampleStep "Mix" (some 1)], tags := none, isPublic := some true,
    created_at := some "2026-01-01T00:00:00Z" }

def ingFault : Faults := { noFaults with ingredientsInsertFails := true }

def mkRecipeRow (i : Nat) : RecipeRow :=
  { id := i, name := "R", description := "", prep_time := 1, servings := 1, difficulty := 1,
    calories := none, main_image_url := none, user_id := "u", created_at := "t",
    is_public := true }

def store25 : Store :=
  { emptyStore with recipes := (List.range 25).map mkRecipeRow, nextId := 26 }

def ingRowFor (o : Option Nat) (nm : String) : IngredientRow :=
  { recipe_id := 1, name := nm, quantity := none, unit := none, optional := false, order := o }

def stepRowFor (n : Option Nat) (d : String) : StepRow :=
  { recipe_id := 1, step_number := n, description := d, tip := none, image_url := none }

/-- A store holding exactly one recipe (id 1) with one ingredient, one step and
one tag association. -/
def storeOne : Store :=
  { recipes := [mkRecipeRow 1]
    ingredients := [ingRowFor (some 1) "Salt"]
    steps := [stepRowFor (some 1) "Do"]
    recipe_tags := [{ recipe_id := 1, tag_id := 4 }]
    tags := [{ id := 4, name := "veg", color := "green" }]
    nextId := 2 }

/-- A store whose single recipe has its dependent rows stored out of display
order. -/
def storeUnsorted : Store :=
  { recipes := [mkRecipeRow 1]
    ingredients := [ingRowFor (some 2) "Egg", ingRowFor (some 1) "Potato"]
    steps := [stepRowFor (some 2) "Serve", stepRowFor (some 1) "Mix"]
    recipe_tags := []
    tags := []
    nextId := 2 }

/-- The ingredient sort keys of a successful response body, `none` otherwise. -/
def resultIngredientKeys (r : EndpointResult Aggregate) : Option (List Nat) :=
  match r with
  | .ok _ body => some (body.data.ingredients.map ingOrderKey)
  | _ => none

def emptyUpdateBody : UpdateBody :=
  { name := none, description := none, prepTime := none, servings := none, difficulty := none,
    calories := none, mainImageURL := none, ingredients := none, steps := none, tags := none,
    isPublic := none }

/-- An update request that empties the ingredient collection and omits the
step and tag collections. -/
def emptyIngredientsUpdate : UpdateBody :=
  { emptyUpdateBody with ingredients := some [] }

/-- An update request with falsy scalars (`name: ""`, `prepTime: 0`,
`servings: 0`, `difficulty: 0`) and an explicitly empty description. -/
def falsyScalarsUpdate : UpdateBody :=
  { emptyUpdateBody with
    name := some ""
    prepTime := some 0
    servings := some 0
    difficulty := some 0
    description := some "" }

/-- A creation payload failing at least one of the six validation conditions the
spec lists: name empty after trimming, `prepTime < 1`, `servings < 1`,
`difficulty` outside `[1,5]`, `ingredients` not a non-empty list, `steps` not a
non-empty list. -/
def claimInvalidBody (b : CreateBody) : Prop :=
  (b.name = none ∨ ∃ n, b.name = some n ∧ jsTrim n = "") ∨
  (b.prepTime = none ∨ ∃ t, b.prepTime = some t ∧ t < 1) ∨
  (b.servings = none ∨ ∃ s, b.servings = some s ∧ s < 1) ∨
  (b.difficulty = none ∨ ∃ d, b.difficulty = some d ∧ (d < 1 ∨ 5 < d)) ∨
  (b.ingredients = none ∨ b.ingredients = some []) ∨
  (b.steps = none ∨ b.steps = some [])

/-- A creation payload with `prepTime: 0` and everything else valid. -/
def invalidBody : CreateBody := { sampleBody with prepTime := some 0 }

/-! ### Theorems -/

/-- C8: for every error envelope built by `formatError`, the detail field is
included only in development mode; in any non-development configuration the
envelope is exactly `{status: "error", statusCode, message}` and is independent
of the error-detail argument; the outer `errorHandler` body likewise carries no
stack detail outside development mode and is independent of the stack. -/
theorem formatError_no_detail_outside_development
    (message : String) (statusCode : Nat) (detail : Option String) (nodeEnv : String)
    (scode : Option Nat) (emsg : Option String) (stack stack2 : Option String) :
    (nodeEnv ≠ "development" →
      formatError message statusCode detail nodeEnv =
        { status := "error", statusCode := statusCode, message := message, error := none }) ∧
    ((formatError message statusCode detail nodeEnv).error.isSome →
      nodeEnv = "development" ∧ detail.isSome) ∧
    (nodeEnv ≠ "development" →
      (errorHandler nodeEnv scode emsg stack).2.error = none ∧
      errorHandler nodeEnv scode emsg stack = errorHandler nodeEnv scode emsg stack2) := by
  refine ⟨?_, ?_, ?_⟩
  · intro h
    cases detail with
    | none => rfl
    | some e => simp [formatError, h]
  · intro h
    cases detail with
    | none => simp [formatError] at h
    | some e =>
      by_cases hd : nodeEnv = "development"
      · exact ⟨hd, rfl⟩
      · simp [formatError, hd] at h
  · intro h
    exact ⟨by simp [errorHandler, h], by simp [errorHandler, h]⟩

/-- C8 witness. -/
theorem formatError_no_detail_outside_development_witness :
    ("production" : String) ≠ "development" ∧
    formatError "Internal server error" 500 (some "boom") "production" =
      { status := "error", statusCode := 500, message := "Internal server error",
        error := none } :=
  ⟨by decide,
   (formatError_no_detail_outside_development "Internal server error" 500 (some "boom")
      "production" none none (some "stack") none).1 (by decide)⟩

/-- C9: on every required-auth recipe route, a request whose bearer credential
is absent, malformed, or fails verification is answered 401 by the middleware
(the handler never runs); on every optional-auth recipe route the same request
proceeds to the handler with no identity attached. -/
theorem verifyAuth_reject_of_bad (getUser : String → Option String) (req : AuthReq)
    (hbad : badCredential getUser req) :
    ∃ lbl msg, verifyAuth getUser req = .reject 401 lbl msg := by
  obtain ⟨auth⟩ := req
  cases auth with
  | none => exact ⟨_, _, rfl⟩
  | some h =>
    simp only [badCredential] at hbad
    by_cases hs : h.startsWith "Bearer "
    · rcases hbad with hbad | hbad
      · exact absurd hs hbad
      · refine ⟨"Invalid token", "Token is invalid or expired", ?_⟩
        simp [verifyAuth, hs, hbad]
    · refine ⟨"Unauthorized", "Auth token missing or malformed", ?_⟩
      simp [verifyAuth, hs]

theorem optionalAuth_none_of_bad (getUser : String → Option String) (req : AuthReq)
    (hbad : badCredential getUser req) :
    optionalAuth getUser req = .proceed none := by
  obtain ⟨auth⟩ := req
  cases auth with
  | none => rfl
  | some h =>
    simp only [badCredential] at hbad
    by_cases hs : h.startsWith "Bearer "
    · rcases hbad with hbad | hbad
      · exact absurd hs hbad
      · simp [optionalAuth, hs, hbad]
    · simp [optionalAuth, hs]

theorem authGate (getUser : String → Option String) (req : AuthReq) (route : Route)
    (_hroute : route ∈ recipeRoutes) (hbad : badCredential getUser req) :
    (route.auth = .required →
      ∃ lbl msg, runAuthMiddleware getUser route.auth req = .reject 401 lbl msg) ∧
    (route.auth = .optional →
      runAuthMiddleware getUser route.auth req = .proceed none) := by
  constructor
  · intro hk
    rw [hk]
    exact verifyAuth_reject_of_bad getUser req hbad
  · intro hk
    rw [hk]
    exact optionalAuth_none_of_bad getUser req hbad

/-- C9 witness: a request with no Authorization header against a verifier that
accepts nothing, on the POST (required) and GET (optional) routes. -/
theorem authGate_witness :
    ({ method := "POST", path := "/", auth := .required } : Route) ∈ recipeRoutes ∧
    badCredential (fun _ => none) { authorization := none } ∧
    (∃ lbl msg,
      runAuthMiddleware (fun _ => none) AuthKind.required { authorization := none } =
        .reject 401 lbl msg) ∧
    runAuthMiddleware (fun _ => none) AuthKind.optional { authorization := none } =
      .proceed none := by
  have hmem : ({ method := "POST", path := "/", auth := .required } : Route) ∈ recipeRoutes := by
    unfold recipeRoutes
    simp
  have h := authGate (fun _ => none) { authorization := none }
    { method := "POST", path := "/", auth := .required } hmem trivial
  have h2 := authGate (fun _ => none) { authorization := none }
    { method := "GET", path := "/", auth := .optional }
    (by unfold recipeRoutes; simp) trivial
  exact ⟨hmem, trivial, h.1 rfl, h2.2 rfl⟩

/-- C4: for every list request with page `p ≥ 1` and limit `L ≥ 1`, the list
operation requests the zero-based row window `[(p-1)*L, p*L - 1]` and returns a
response whose `results` equals the number of returned items, `totalItems` the
store's exact count, `currentPage` `p`, and `totalPages` the ceiling of
`totalItems / L`; in particular page 2 with limit 10 over 25 items yields
exactly 10 items, `totalPages = 3`, `currentPage = 2`. -/
theorem getAllRecipes_pagination (store : Store) (p L : Nat) (hp : 1 ≤ p) (hL : 1 ≤ L) :
    (getAllRecipes store (some p) (some L)).data
        = rangeSlice store.recipes ((p - 1) * L) (p * L - 1) ∧
    (getAllRecipes store (some p) (some L)).results
        = ((getAllRecipes store (some p) (some L)).data).length ∧
    (getAllRecipes store (some p) (some L)).results
        = min L (store.recipes.length - (p - 1) * L) ∧
    (getAllRecipes store (some p) (some L)).totalItems = store.recipes.length ∧
    (getAllRecipes store (some p) (some L)).currentPage = p ∧
    store.recipes.length ≤ (getAllRecipes store (some p) (some L)).totalPages * L ∧
    (getAllRecipes store (some p) (some L)).totalPages * L < store.recipes.length + L ∧
    (store.recipes.length = 25 → p = 2 → L = 10 →
      (getAllRecipes store (some p) (some L)).results = 10 ∧
      (getAllRecipes store (some p) (some L)).totalPages = 3 ∧
      (getAllRecipes store (some p) (some L)).currentPage = 2) := by
  have hp0 : (p == 0) = false := by
    simp only [beq_eq_false_iff_ne, ne_eq]
    omega
  have hL0 : (L == 0) = false := by
    simp only [beq_eq_false_iff_ne, ne_eq]
    omega
  have hgr :
      getAllRecipes store (some p) (some L) =
        formatPagination (rangeSlice store.recipes ((p - 1) * L) (p * L - 1))
          store.recipes.length p L "Recipes retrieved successfully" := by
    simp [getAllRecipes, hp0, hL0]
  have hwin : p * L - 1 + 1 - (p - 1) * L = L := by
    have h1 : 1 ≤ p * L := Nat.one_le_iff_ne_zero.mpr (Nat.mul_ne_zero (by omega) (by omega))
    have h2 : (p - 1) * L = p * L - L := Nat.sub_one_mul p L
    have h3 : L ≤ p * L := Nat.le_mul_of_pos_left L (by omega)
    omega
  have hlen : (rangeSlice store.recipes ((p - 1) * L) (p * L - 1)).length
      = min L (store.recipes.length - (p - 1) * L) := by
    unfold rangeSlice
    rw [List.length_take, List.length_drop, hwin]
  have hceil₁ : store.recipes.length ≤ (store.recipes.length + L - 1) / L * L := by
    have hd := Nat.div_add_mod (store.recipes.length + L - 1) L
    have hm : (store.recipes.length + L - 1) % L < L := Nat.mod_lt _ (by omega)
    rw [Nat.mul_comm]
    generalize hq : (store.recipes.length + L - 1) / L = q at hd
    generalize hx : L * q = x at hd ⊢
    omega
  have hceil₂ : (store.recipes.length + L - 1) / L * L < store.recipes.length + L := by
    have hd := Nat.div_add_mod (store.recipes.length + L - 1) L
    have hm : (store.recipes.length + L - 1) % L < L := Nat.mod_lt _ (by omega)
    rw [Nat.mul_comm]
    generalize hq : (store.recipes.length + L - 1) / L = q at hd
    generalize hx : L * q = x at hd ⊢
    omega
  refine ⟨by rw [hgr]; rfl, by rw [hgr]; rfl, ?_, by rw [hgr]; rfl, by rw [hgr]; rfl, ?_, ?_, ?_⟩
  · rw [hgr]
    exact hlen
  · rw [hgr]
    exact hceil₁
  · rw [hgr]
    exact hceil₂
  · intro h25 hp2 hL10
    subst hp2 hL10
    rw [hgr]
    refine ⟨?_, ?_, rfl⟩
    · show (rangeSlice store.recipes ((2 - 1) * 10) (2 * 10 - 1)).length = 10
      rw [hlen, h25]
      decide
    · show (store.recipes.length + 10 - 1) / 10 = 3
      rw [h25]

/-- C4 witness: a 25-recipe store, page 2, limit 10. -/
theorem getAllRecipes_pagination_witness :
    1 ≤ 2 ∧ 1 ≤ 10 ∧ store25.recipes.length = 25 ∧
    (getAllRecipes store25 (some 2) (some 10)).results = 10 ∧
    (getAllRecipes store25 (some 2) (some 10)).totalPages = 3 ∧
    (getAllRecipes store25 (some 2) (some 10)).currentPage = 2 := by
  have h := (getAllRecipes_pagination store25 2 10 (by decide) (by decide)).2.2.2.2.2.2.2
    (by decide) rfl rfl
  exact ⟨by decide, by decide, by decide, h.1, h.2.1, h.2.2⟩

/-- C10: in the ingredient and step rows built for insertion (used by both the
create and the update workflow), an explicitly supplied `order`/`step_number`
of `0` is treated exactly like an absent one — the stored value becomes the
1-based insertion index — and consequently no persisted row carries `0` (or a
missing value) in these fields. -/
theorem positional_default_on_zero (rid : Nat) (ings : List IngredientInput)
    (ss : List StepInput) :
    (ingredientsToInsert rid ings).length = ings.length ∧
    (∀ idx, ∀ h : idx < ings.length, ∀ h2 : idx < (ingredientsToInsert rid ings).length,
      ((ings.get ⟨idx, h⟩).order = some 0 ∨ (ings.get ⟨idx, h⟩).order = none) →
      ((ingredientsToInsert rid ings).get ⟨idx, h2⟩).order = some (idx + 1)) ∧
    (∀ row ∈ ingredientsToInsert rid ings, ∃ k, row.order = some k ∧ 1 ≤ k) ∧
    (stepsToInsert rid ss).length = ss.length ∧
    (∀ idx, ∀ h : idx < ss.length, ∀ h2 : idx < (stepsToInsert rid ss).length,
      ((ss.get ⟨idx, h⟩).step_number = some 0 ∨ (ss.get ⟨idx, h⟩).step_number = none) →
      ((stepsToInsert rid ss).get ⟨idx, h2⟩).step_number = some (idx + 1)) ∧
    (∀ row ∈ stepsToInsert rid ss, ∃ k, row.step_number = some k ∧ 1 ≤ k) := by
  refine ⟨by simp [ingredientsToInsert], ?_, ?_, by simp [stepsToInsert], ?_, ?_⟩
  · intro idx h h2 hcase
    unfold ingredientsToInsert
    simp only [List.get_eq_getElem, List.getElem_mapIdx]
    rcases hcase with hc | hc <;> simp only [List.get_eq_getElem] at hc <;> simp [hc]
  · intro row hrow
    rw [List.mem_iff_get] at hrow
    obtain ⟨⟨idx, hidx⟩, hget⟩ := hrow
    have hidx' : idx < ings.length := by
      simpa [ingredientsToInsert] using hidx
    subst hget
    unfold ingredientsToInsert
    simp only [List.get_eq_getElem, List.getElem_mapIdx]
    cases ho : (ings.get ⟨idx, hidx'⟩).order with
    | some o =>
      simp only [List.get_eq_getElem] at ho
      by_cases h0 : o = 0
      · exact ⟨idx + 1, by simp [ingredientsToInsert, ho, h0], by omega⟩
      · exact ⟨o, by simp [ingredientsToInsert, ho, h0], by omega⟩
    | none =>
      simp only [List.get_eq_getElem] at ho
      exact ⟨idx + 1, by simp [ingredientsToInsert, ho], by omega⟩
  · intro idx h h2 hcase
    unfold stepsToInsert
    simp only [List.get_eq_getElem, List.getElem_mapIdx]
    rcases hcase with hc | hc <;> simp only [List.get_eq_getElem] at hc <;> simp [hc]
  · intro row hrow
    rw [List.mem_iff_get] at hrow
    obtain ⟨⟨idx, hidx⟩, hget⟩ := hrow
    have hidx' : idx < ss.length := by
      simpa [stepsToInsert] using hidx
    subst hget
    unfold stepsToInsert
    simp only [List.get_eq_getElem, List.getElem_mapIdx]
    cases ho : (ss.get ⟨idx, hidx'⟩).step_number with
    | some o =>
      simp only [List.get_eq_getElem] at ho
      by_cases h0 : o = 0
      · exact ⟨idx + 1, by simp [stepsToInsert, ho, h0], by omega⟩
      · exact ⟨o, by simp [stepsToInsert, ho, h0], by omega⟩
    | none =>
      simp only [List.get_eq_getElem] at ho
      exact ⟨idx + 1, by simp [stepsToInsert, ho], by omega⟩

/-- C10 witness: an ingredient with explicit `order: 0` and a step without
`step_number` both get stored position 1. -/
theorem positional_default_on_zero_witness :
    ((ingredientsToInsert 7 [sampleIngredient "A" (some 0)]).get
        ⟨0, by decide⟩).order = some 1 ∧
    ((stepsToInsert 7 [sampleStep "d" none]).get ⟨0, by decide⟩).step_number = some 1 := by
  have h := positional_default_on_zero 7 [sampleIngredient "A" (some 0)] [sampleStep "d" none]
  exact ⟨h.2.1 0 (by decide) (by decide) (Or.inl rfl),
         h.2.2.2.2.1 0 (by decide) (by decide) (Or.inr rfl)⟩

theorem flag_of_claimInvalid (b : CreateBody) (h : claimInvalidBody b) :
    nameMissing b = true ∨ prepTimeMissing b = true ∨ servingsMissing b = true ∨
    difficultyMissing b = true ∨ ingredientsMissing b = true ∨ stepsMissing b = true := by
  rcases h with h | h | h | h | h | h
  · refine Or.inl ?_
    rcases h with h | ⟨n, hn, ht⟩
    · simp [nameMissing, h]
    · simp [nameMissing, hn, ht]
  · refine Or.inr (Or.inl ?_)
    rcases h with h | ⟨t, hn, ht⟩
    · simp [prepTimeMissing, h]
    · simp [prepTimeMissing, hn, ht]
  · refine Or.inr (Or.inr (Or.inl ?_))
    rcases h with h | ⟨s, hn, ht⟩
    · simp [servingsMissing, h]
    · simp [servingsMissing, hn, ht]
  · refine Or.inr (Or.inr (Or.inr (Or.inl ?_)))
    rcases h with h | ⟨d, hn, ht⟩
    · simp [difficultyMissing, h]
    · rcases ht with ht | ht <;> simp [difficultyMissing, hn, ht]
  · refine Or.inr (Or.inr (Or.inr (Or.inr (Or.inl ?_))))
    rcases h with h | h <;> simp [ingredientsMissing, h]
  · refine Or.inr (Or.inr (Or.inr (Or.inr (Or.inr ?_))))
    rcases h with h | h <;> simp [stepsMissing, h]

theorem checkValidation_isSome_of_flag (b : CreateBody)
    (h : nameMissing b = true ∨ prepTimeMissing b = true ∨ servingsMissing b = true ∨
      difficultyMissing b = true ∨ ingredientsMissing b = true ∨ stepsMissing b = true) :
    ∃ msg, checkValidation b = some msg := by
  unfold checkValidation
  by_cases h1 : nameMissing b
  · exact ⟨_, by rw [if_pos h1]⟩
  · rw [if_neg h1]
    by_cases h2 : prepTimeMissing b
    · exact ⟨_, by rw [if_pos h2]⟩
    · rw [if_neg h2]
      by_cases h3 : servingsMissing b
      · exact ⟨_, by rw [if_pos h3]⟩
      · rw [if_neg h3]
        by_cases h4 : difficultyMissing b
        · exact ⟨_, by rw [if_pos h4]⟩
        · rw [if_neg h4]
          by_cases h5 : ingredientsMissing b
          · exact ⟨_, by rw [if_pos h5]⟩
          · rw [if_neg h5]
            by_cases h6 : stepsMissing b
            · exact ⟨_, by rw [if_pos h6]⟩
            · rcases h with h | h | h | h | h | h
              · exact absurd h h1
              · exact absurd h h2
              · exact absurd h h3
              · exact absurd h h4
              · exact absurd h h5
              · exact absurd h h6

/-- C2: for every creation payload in which the name is empty after trimming,
or `prepTime < 1`, or `servings < 1`, or `difficulty` is outside `[1,5]`, or
`ingredients` is not a non-empty list, or `steps` is not a non-empty list,
`createRecipe` returns a 400 validation-error response and leaves the store
completely untouched. -/
theorem createRecipe_validation_no_side_effect (env : String) (faults : Faults)
    (store : Store) (userId nowIso : String) (b : CreateBody) (h : claimInvalidBody b) :
    ∃ msg, createRecipe env faults store userId nowIso b =
      (.err 400 (formatError msg 400 none env), store) := by
  obtain ⟨msg, hmsg⟩ := checkValidation_isSome_of_flag b (flag_of_claimInvalid b h)
  refine ⟨msg, ?_⟩
  unfold createRecipe
  rw [hmsg]

/-- C2 witness: `prepTime = 0` yields a 400 error and an unchanged store. -/
theorem createRecipe_validation_no_side_effect_witness :
    claimInvalidBody invalidBody ∧
    ∃ msg, createRecipe "production" noFaults emptyStore "u1" "now" invalidBody =
      (.err 400 (formatError msg 400 none "production"), emptyStore) :=
  ⟨Or.inr (Or.inl (Or.inr ⟨0, rfl, by decide⟩)),
   createRecipe_validation_no_side_effect "production" noFaults emptyStore "u1" "now"
     invalidBody (Or.inr (Or.inl (Or.inr ⟨0, rfl, by decide⟩)))⟩

theorem find?_eq_none_filter_ne (l : List RecipeRow) (id : Nat) :
    (l.filter (fun r => r.id != id)).find? (fun r => r.id == id) = none := by
  rw [List.find?_eq_none]
  intro x hx
  have hx2 := (List.mem_filter.mp hx).2
  simp only [bne_iff_ne, ne_eq] at hx2
  simp [hx2]

theorem fetchAggregate_eq_none (store : Store) (id : Nat)
    (h : store.recipes.find? (fun r => r.id == id) = none) :
    fetchAggregate store id = none := by
  unfold fetchAggregate
  rw [h]

theorem fetchAggregate_rollbackCreate (faults : Faults)
    (hroll : faults.rollbackDeleteFails = false) (st : Store) (id : Nat) :
    fetchAggregate (rollbackCreate faults st id) id = none := by
  unfold rollbackCreate
  rw [hroll]
  simp only [Bool.false_eq_true, if_false]
  exact fetchAggregate_eq_none _ _ (find?_eq_none_filter_ne st.recipes id)

/-- C1: if, after a successful parent insert during recipe creation, any
dependent-row insert (ingredients, steps, or tag associations) fails, the
original error is propagated and — provided the compensating delete itself does
not fail — no recipe with the created identity remains retrievable from the
resulting store. -/
theorem createRecipe_rollback (env : String) (faults : Faults) (store : Store)
    (userId nowIso : String) (b : CreateBody)
    (hvalid : checkValidation b = none)
    (hrec : faults.recipeInsertFails = false)
    (hroll : faults.rollbackDeleteFails = false)
    (hdep : faults.ingredientsInsertFails = true ∨ faults.stepsInsertFails = true ∨
      (faults.tagsInsertFails = true ∧ ∃ ts, b.tags = some ts ∧ ts ≠ [])) :
    (∃ e, (createRecipe env faults store userId nowIso b).1 = .thrown e ∧
      (e = DbErr.ingredientsInsertErr ∨ e = DbErr.stepsInsertErr ∨
        e = DbErr.tagsInsertErr)) ∧
    fetchAggregate (createRecipe env faults store userId nowIso b).2 store.nextId = none := by
  cases hi : faults.ingredientsInsertFails with
  | true =>
    have hres : createRecipe env faults store userId nowIso b =
        (.thrown .ingredientsInsertErr,
         rollbackCreate faults
           { store with
             recipes := store.recipes ++ [newRecipeRow store userId nowIso b]
             nextId := store.nextId + 1 }
           store.nextId) := by
      unfold createRecipe
      rw [hvalid, hrec, hi]
      rfl
    rw [hres]
    exact ⟨⟨_, rfl, Or.inl rfl⟩, fetchAggregate_rollbackCreate faults hroll _ _⟩
  | false =>
    cases hs : faults.stepsInsertFails with
    | true =>
      have hres : createRecipe env faults store userId nowIso b =
          (.thrown .stepsInsertErr,
           rollbackCreate faults
             { store with
               recipes := store.recipes ++ [newRecipeRow store userId nowIso b]
               ingredients := store.ingredients ++
                 ingredientsToInsert store.nextId (b.ingredients.getD [])
               nextId := store.nextId + 1 }
             store.nextId) := by
        unfold createRecipe
        rw [hvalid, hrec, hi, hs]
        rfl
      rw [hres]
      exact ⟨⟨_, rfl, Or.inr (Or.inl rfl)⟩, fetchAggregate_rollbackCreate faults hroll _ _⟩
    | false =>
      rcases hdep with hdep | hdep | ⟨ht, ts, hts, htne⟩
      · rw [hdep] at hi
        exact absurd hi (by simp)
      · rw [hdep] at hs
        exact absurd hs (by simp)
      · have htsE : ts.isEmpty = false := by
          cases ts with
          | nil => exact absurd rfl htne
          | cons a l => rfl
        have hres : createRecipe env faults store userId nowIso b =
            (.thrown .tagsInsertErr,
             rollbackCreate faults
               { store with
                 recipes := store.recipes ++ [newRecipeRow store userId nowIso b]
                 ingredients := store.ingredients ++
                   ingredientsToInsert store.nextId (b.ingredients.getD [])
                 steps := store.steps ++ stepsToInsert store.nextId (b.steps.getD [])
                 nextId := store.nextId + 1 }
               store.nextId) := by
          unfold createRecipe
          rw [hvalid, hrec, hi, hs, hts, ht]
          simp only [htsE]
          rfl
        rw [hres]
        exact ⟨⟨_, rfl, Or.inr (Or.inr rfl)⟩, fetchAggregate_rollbackCreate faults hroll _ _⟩

/-- C1 witness: a valid payload whose ingredient insert fails; the thrown error
is the ingredient-insert error and the created identity is gone. -/
theorem createRecipe_rollback_witness :
    checkValidation sampleBody = none ∧
    (∃ e, (createRecipe "production" ingFault emptyStore "u1" "now" sampleBody).1 =
        .thrown e ∧
      (e = DbErr.ingredientsInsertErr ∨ e = DbErr.stepsInsertErr ∨
        e = DbErr.tagsInsertErr)) ∧
    fetchAggregate (createRecipe "production" ingFault emptyStore "u1" "now" sampleBody).2
      1 = none := by
  have h := createRecipe_rollback "production" ingFault emptyStore "u1" "now" sampleBody
    (by decide) rfl rfl (Or.inl rfl)
  exact ⟨by decide, h.1, h.2⟩

/-- C3 counterexample: a valid creation payload supplying ingredient orders
`[2, 1]` makes `createRecipe` succeed and return the aggregate with its
ingredient list NOT sorted ascending by `order` — the create path performs no
sort on the re-fetched aggregate. -/
theorem createRecipe_result_not_sorted :
    resultIngredientKeys
        (createRecipe "production" noFaults emptyStore "u1" "now" sampleBody).1 =
      some [2, 1] ∧
    ¬ List.Pairwise (fun a b : Nat => a ≤ b) [2, 1] := by
  exact ⟨by decide, by decide⟩

theorem pairwise_le_of_mergeSort_ing (l : List IngredientRow) :
    List.Pairwise (fun a b : Nat => a ≤ b)
      ((l.mergeSort (fun a b => decide (ingOrderKey a ≤ ingOrderKey b))).map ingOrderKey) := by
  rw [List.pairwise_map]
  have h := @List.sorted_mergeSort IngredientRow
    (fun a b => decide (ingOrderKey a ≤ ingOrderKey b))
    (fun a b c hab hbc => by
      simp only [decide_eq_true_eq] at hab hbc ⊢
      exact le_trans hab hbc)
    (fun a b => by
      simp only [Bool.or_eq_true, decide_eq_true_eq]
      exact Nat.le_total (ingOrderKey a) (ingOrderKey b))
    l
  exact h.imp (fun hab => by simpa using hab)

theorem pairwise_le_of_mergeSort_step (l : List StepRow) :
    List.Pairwise (fun a b : Nat => a ≤ b)
      ((l.mergeSort (fun a b => decide (stepNumberKey a ≤ stepNumberKey b))).map
        stepNumberKey) := by
  rw [List.pairwise_map]
  have h := @List.sorted_mergeSort StepRow
    (fun a b => decide (stepNumberKey a ≤ stepNumberKey b))
    (fun a b c hab hbc => by
      simp only [decide_eq_true_eq] at hab hbc ⊢
      exact le_trans hab hbc)
    (fun a b => by
      simp only [Bool.or_eq_true, decide_eq_true_eq]
      exact Nat.le_total (stepNumberKey a) (stepNumberKey b))
    l
  exact h.imp (fun hab => by simpa using hab)

/-- C3 amended: the read-time presentation sort is applied by the get-by-id
path, not by the create path: every successful `getRecipeById` response has its
ingredient list sorted ascending by `order` and its step list sorted ascending
by `step_number` (missing values treated as 0), while `createRecipe` returns
the re-fetched aggregate in store order (see the counterexample). -/
theorem getRecipeById_sorted (env : String) (store : Store) (id : Nat) (code : Nat)
    (body : SuccessEnvelope Aggregate)
    (h : getRecipeById env store id = .ok code body) :
    List.Pairwise (fun a b : Nat => a ≤ b) (body.data.ingredients.map ingOrderKey) ∧
    List.Pairwise (fun a b : Nat => a ≤ b) (body.data.steps.map stepNumberKey) := by
  unfold getRecipeById at h
  cases hagg : fetchAggregate store id with
  | none =>
    rw [hagg] at h
    exact absurd h (by simp)
  | some agg =>
    rw [hagg] at h
    have hbody : body = formatSuccess (sortAggregate agg) "Recipe retrieved successfully" 200 := by
      cases h
      rfl
    subst hbody
    constructor
    · exact pairwise_le_of_mergeSort_ing agg.ingredients
    · exact pairwise_le_of_mergeSort_step agg.steps

/-- C3 amended witness: fetching the recipe whose rows are stored out of order
yields a sorted response. -/
theorem getRecipeById_sorted_witness :
    getRecipeById "production" storeUnsorted 1 =
      .ok 200 (formatSuccess
        (sortAggregate
          { recipe := mkRecipeRow 1
            ingredients := [ingRowFor (some 2) "Egg", ingRowFor (some 1) "Potato"]
            steps := [stepRowFor (some 2) "Serve", stepRowFor (some 1) "Mix"]
            recipe_tags := [] })
        "Recipe retrieved successfully" 200) ∧
    List.Pairwise (fun a b : Nat => a ≤ b)
      ((formatSuccess
        (sortAggregate
          { recipe := mkRecipeRow 1
            ingredients := [ingRowFor (some 2) "Egg", ingRowFor (some 1) "Potato"]
            steps := [stepRowFor (some 2) "Serve", stepRowFor (some 1) "Mix"]
            recipe_tags := [] })
        "Recipe retrieved successfully" 200).data.ingredients.map ingOrderKey) := by
  have hok : getRecipeById "production" storeUnsorted 1 =
      .ok 200 (formatSuccess
        (sortAggregate
          { recipe := mkRecipeRow 1
            ingredients := [ingRowFor (some 2) "Egg", ingRowFor (some 1) "Potato"]
            steps := [stepRowFor (some 2) "Serve", stepRowFor (some 1) "Mix"]
            recipe_tags := [] })
        "Recipe retrieved successfully" 200) := rfl
  exact ⟨hok, (getRecipeById_sorted "production" storeUnsorted 1 200 _ hok).1⟩

theorem scalarsPhase_ingredients (id : Nat) (b : UpdateBody) (st : Store) :
    (updateScalarsPhase id b st).ingredients = st.ingredients := by
  simp only [updateScalarsPhase]
  split <;> rfl

theorem scalarsPhase_steps (id : Nat) (b : UpdateBody) (st : Store) :
    (updateScalarsPhase id b st).steps = st.steps := by
  simp only [updateScalarsPhase]
  split <;> rfl

theorem scalarsPhase_recipe_tags (id : Nat) (b : UpdateBody) (st : Store) :
    (updateScalarsPhase id b st).recipe_tags = st.recipe_tags := by
  simp only [updateScalarsPhase]
  split <;> rfl

theorem ingPhase_recipes (id : Nat) (b : UpdateBody) (st : Store) :
    (updateIngredientsPhase id b st).recipes = st.recipes := by
  cases hc : b.ingredients with
  | none => simp [updateIngredientsPhase, hc]
  | some l => by_cases hl : l.isEmpty <;> simp [updateIngredientsPhase, hc, hl]

theorem ingPhase_steps (id : Nat) (b : UpdateBody) (st : Store) :
    (updateIngredientsPhase id b st).steps = st.steps := by
  cases hc : b.ingredients with
  | none => simp [updateIngredientsPhase, hc]
  | some l => by_cases hl : l.isEmpty <;> simp [updateIngredientsPhase, hc, hl]

theorem ingPhase_recipe_tags (id : Nat) (b : UpdateBody) (st : Store) :
    (updateIngredientsPhase id b st).recipe_tags = st.recipe_tags := by
  cases hc : b.ingredients with
  | none => simp [updateIngredientsPhase, hc]
  | some l => by_cases hl : l.isEmpty <;> simp [updateIngredientsPhase, hc, hl]

theorem ingPhase_some (id : Nat) (b : UpdateBody) (st : Store) (l : List IngredientInput)
    (hl : b.ingredients = some l) :
    (updateIngredientsPhase id b st).ingredients =
      st.ingredients.filter (fun i => i.recipe_id != id) ++ ingredientsToInsert id l := by
  by_cases he : l.isEmpty
  · have hnil : l = [] := by simpa using he
    subst hnil
    simp [updateIngredientsPhase, hl, ingredientsToInsert]
  · simp [updateIngredientsPhase, hl, he]

theorem ingPhase_none (id : Nat) (b : UpdateBody) (st : Store)
    (hl : b.ingredients = none) : updateIngredientsPhase id b st = st := by
  simp [updateIngredientsPhase, hl]

theorem stepsPhase_recipes (id : Nat) (b : UpdateBody) (st : Store) :
    (updateStepsPhase id b st).recipes = st.recipes := by
  cases hc : b.steps with
  | none => simp [updateStepsPhase, hc]
  | some l => by_cases hl : l.isEmpty <;> simp [updateStepsPhase, hc, hl]

theorem stepsPhase_ingredients (id : Nat) (b : UpdateBody) (st : Store) :
    (updateStepsPhase id b st).ingredients = st.ingredients := by
  cases hc : b.steps with
  | none => simp [updateStepsPhase, hc]
  | some l => by_cases hl : l.isEmpty <;> simp [updateStepsPhase, hc, hl]

theorem stepsPhase_recipe_tags (id : Nat) (b : UpdateBody) (st : Store) :
    (updateStepsPhase id b st).recipe_tags = st.recipe_tags := by
  cases hc : b.steps with
  | none => simp [updateStepsPhase, hc]
  | some l => by_cases hl : l.isEmpty <;> simp [updateStepsPhase, hc, hl]

theorem stepsPhase_some (id : Nat) (b : UpdateBody) (st : Store) (l : List StepInput)
    (hl : b.steps = some l) :
    (updateStepsPhase id b st).steps =
      st.steps.filter (fun s => s.recipe_id != id) ++ stepsToInsert id l := by
  by_cases he : l.isEmpty
  · have hnil : l = [] := by simpa using he
    subst hnil
    simp [updateStepsPhase, hl, stepsToInsert]
  · simp [updateStepsPhase, hl, he]

theorem stepsPhase_none (id : Nat) (b : UpdateBody) (st : Store)
    (hl : b.steps = none) : updateStepsPhase id b st = st := by
  simp [updateStepsPhase, hl]

theorem tagsPhase_recipes (id : Nat) (b : UpdateBody) (st : Store) :
    (updateTagsPhase id b st).recipes = st.recipes := by
  cases hc : b.tags with
  | none => simp [updateTagsPhase, hc]
  | some l => by_cases hl : l.isEmpty <;> simp [updateTagsPhase, hc, hl]

theorem tagsPhase_ingredients (id : Nat) (b : UpdateBody) (st : Store) :
    (updateTagsPhase id b st).ingredients = st.ingredients := by
  cases hc : b.tags with
  | none => simp [updateTagsPhase, hc]
  | some l => by_cases hl : l.isEmpty <;> simp [updateTagsPhase, hc, hl]

theorem tagsPhase_steps (id : Nat) (b : UpdateBody) (st : Store) :
    (updateTagsPhase id b st).steps = st.steps := by
  cases hc : b.tags with
  | none => simp [updateTagsPhase, hc]
  | some l => by_cases hl : l.isEmpty <;> simp [updateTagsPhase, hc, hl]

theorem tagsPhase_some (id : Nat) (b : UpdateBody) (st : Store) (l : List TagInput)
    (hl : b.tags = some l) :
    (updateTagsPhase id b st).recipe_tags =
      st.recipe_tags.filter (fun t => t.recipe_id != id) ++ tagsToInsert id l := by
  by_cases he : l.isEmpty
  · have hnil : l = [] := by simpa using he
    subst hnil
    simp [updateTagsPhase, hl, tagsToInsert]
  · simp [updateTagsPhase, hl, he]

theorem tagsPhase_none (id : Nat) (b : UpdateBody) (st : Store)
    (hl : b.tags = none) : updateTagsPhase id b st = st := by
  simp [updateTagsPhase, hl]

theorem updateRecipe_snd (env : String) (store : Store) (id : Nat) (b : UpdateBody)
    (r : RecipeRow) (hfind : store.recipes.find? (fun x => x.id == id) = some r) :
    (updateRecipe env store id b).2 =
      updateTagsPhase id b (updateStepsPhase id b (updateIngredientsPhase id b
        (updateScalarsPhase id b store))) := by
  unfold updateRecipe
  rw [hfind]

/-- C5: on update of an existing recipe, each dependent collection present in
the request as a list is replaced wholesale (existing rows for that recipe
deleted, then the supplied list inserted; an empty list leaves the collection
empty for that recipe), and each collection absent from the request is left
completely unchanged. -/
theorem updateRecipe_collections (env : String) (store : Store) (id : Nat) (b : UpdateBody)
    (r : RecipeRow) (hfind : store.recipes.find? (fun x => x.id == id) = some r) :
    (∀ l, b.ingredients = some l →
      ((updateRecipe env store id b).2).ingredients =
        store.ingredients.filter (fun i => i.recipe_id != id) ++ ingredientsToInsert id l) ∧
    (b.ingredients = none →
      ((updateRecipe env store id b).2).ingredients = store.ingredients) ∧
    (∀ l, b.steps = some l →
      ((updateRecipe env store id b).2).steps =
        store.steps.filter (fun s => s.recipe_id != id) ++ stepsToInsert id l) ∧
    (b.steps = none → ((updateRecipe env store id b).2).steps = store.steps) ∧
    (∀ l, b.tags = some l →
      ((updateRecipe env store id b).2).recipe_tags =
        store.recipe_tags.filter (fun t => t.recipe_id != id) ++ tagsToInsert id l) ∧
    (b.tags = none → ((updateRecipe env store id b).2).recipe_tags = store.recipe_tags) := by
  rw [updateRecipe_snd env store id b r hfind]
  refine ⟨?_, ?_, ?_, ?_, ?_, ?_⟩
  · intro l hl
    rw [tagsPhase_ingredients, stepsPhase_ingredients, ingPhase_some id b _ l hl,
      scalarsPhase_ingredients]
  · intro hl
    rw [tagsPhase_ingredients, stepsPhase_ingredients, ingPhase_none id b _ hl,
      scalarsPhase_ingredients]
  · intro l hl
    rw [tagsPhase_steps, stepsPhase_some id b _ l hl, ingPhase_steps, scalarsPhase_steps]
  · intro hl
    rw [tagsPhase_steps, stepsPhase_none id b _ hl, ingPhase_steps, scalarsPhase_steps]
  · intro l hl
    rw [tagsPhase_some id b _ l hl, stepsPhase_recipe_tags, ingPhase_recipe_tags,
      scalarsPhase_recipe_tags]
  · intro hl
    rw [tagsPhase_none id b _ hl, stepsPhase_recipe_tags, ingPhase_recipe_tags,
      scalarsPhase_recipe_tags]

/-- C5 witness: supplying `ingredients: []` empties the collection while the
omitted `steps` and `tags` collections stay unchanged. -/
theorem updateRecipe_collections_witness :
    storeOne.recipes.find? (fun x => x.id == 1) = some (mkRecipeRow 1) ∧
    ((updateRecipe "production" storeOne 1 emptyIngredientsUpdate).2).ingredients =
      storeOne.ingredients.filter (fun i => i.recipe_id != 1) ++ ingredientsToInsert 1 [] ∧
    ((updateRecipe "production" storeOne 1 emptyIngredientsUpdate).2).ingredients = [] ∧
    ((updateRecipe "production" storeOne 1 emptyIngredientsUpdate).2).steps =
      storeOne.steps ∧
    ((updateRecipe "production" storeOne 1 emptyIngredientsUpdate).2).recipe_tags =
      storeOne.recipe_tags := by
  have hfind : storeOne.recipes.find? (fun x => x.id == 1) = some (mkRecipeRow 1) := by
    decide
  have h := updateRecipe_collections "production" storeOne 1 emptyIngredientsUpdate
    (mkRecipeRow 1) hfind
  refine ⟨hfind, h.1 [] rfl, ?_, h.2.2.2.1 rfl, h.2.2.2.2.2 rfl⟩
  rw [h.1 [] rfl]
  decide

theorem eq_none_of_isSome_eq_false {α : Type} {o : Option α} (h : o.isSome = false) :
    o = none := by
  cases o with
  | none => rfl
  | some v => simp at h

theorem applyUpdatedData_self (u : UpdatedData) (r : RecipeRow)
    (h : hasUpdates u = false) : applyUpdatedData u r = r := by
  obtain ⟨n, d, p, s, df, c, m, ip⟩ := u
  simp only [hasUpdates, Bool.or_eq_false_iff] at h
  obtain ⟨⟨⟨⟨⟨⟨⟨h1, h2⟩, h3⟩, h4⟩, h5⟩, h6⟩, h7⟩, h8⟩ := h
  rw [eq_none_of_isSome_eq_false h1] at *
  rw [eq_none_of_isSome_eq_false h2] at *
  rw [eq_none_of_isSome_eq_false h3] at *
  rw [eq_none_of_isSome_eq_false h4] at *
  rw [eq_none_of_isSome_eq_false h5] at *
  rw [eq_none_of_isSome_eq_false h6] at *
  rw [eq_none_of_isSome_eq_false h7] at *
  rw [eq_none_of_isSome_eq_false h8] at *
  rfl

theorem find?_map_applyIf (l : List RecipeRow) (id : Nat) (f : RecipeRow → RecipeRow)
    (hf : ∀ x, (f x).id = x.id) (r : RecipeRow)
    (h : l.find? (fun x => x.id == id) = some r) :
    (l.map (fun x => if x.id == id then f x else x)).find? (fun x => x.id == id) =
      some (f r) := by
  induction l with
  | nil => simp at h
  | cons a l ih =>
    by_cases ha : (a.id == id) = true
    · rw [@List.find?_cons_of_pos _ (fun x => x.id == id) a l ha] at h
      have hr : a = r := Option.some.inj h
      rw [List.map_cons, if_pos ha, ← hr]
      refine @List.find?_cons_of_pos _ (fun x => x.id == id) (f a) _ ?_
      show ((f a).id == id) = true
      rw [hf a]
      exact ha
    · rw [@List.find?_cons_of_neg _ (fun x => x.id == id) a l ha] at h
      rw [List.map_cons, if_neg ha]
      rw [@List.find?_cons_of_neg _ (fun x => x.id == id) a _ ha]
      exact ih h

theorem scalarsPhase_recipes_find? (id : Nat) (b : UpdateBody) (st : Store) (r : RecipeRow)
    (hfind : st.recipes.find? (fun x => x.id == id) = some r) :
    (updateScalarsPhase id b st).recipes.find? (fun x => x.id == id) =
      some (applyUpdatedData (buildUpdatedData b) r) := by
  simp only [updateScalarsPhase]
  split
  next h =>
    exact find?_map_applyIf st.recipes id
      (fun x => applyUpdatedData (buildUpdatedData b) x) (fun x => rfl) r hfind
  next h =>
    have h0 : hasUpdates (buildUpdatedData b) = false := by
      revert h
      cases hasUpdates (buildUpdatedData b) <;> simp
    rw [hfind, applyUpdatedData_self _ r h0]

/-- C6: on update of an existing recipe, the partial-update object applies only
fields present in the request: a falsy or absent `name`, `prepTime`,
`servings` or `difficulty` leaves the stored field untouched, while an
explicitly provided description — even the empty string — is applied
(presence, not truthiness, governs the description). -/
theorem updateRecipe_scalars (env : String) (store : Store) (id : Nat) (b : UpdateBody)
    (r : RecipeRow) (hfind : store.recipes.find? (fun x => x.id == id) = some r) :
    ((updateRecipe env store id b).2).recipes.find? (fun x => x.id == id) =
      some (applyUpdatedData (buildUpdatedData b) r) ∧
    ((b.name = none ∨ b.name = some "") →
      (applyUpdatedData (buildUpdatedData b) r).name = r.name) ∧
    ((b.prepTime = none ∨ b.prepTime = some 0) →
      (applyUpdatedData (buildUpdatedData b) r).prep_time = r.prep_time) ∧
    ((b.servings = none ∨ b.servings = some 0) →
      (applyUpdatedData (buildUpdatedData b) r).servings = r.servings) ∧
    ((b.difficulty = none ∨ b.difficulty = some 0) →
      (applyUpdatedData (buildUpdatedData b) r).difficulty = r.difficulty) ∧
    (∀ d, b.description = some d →
      (applyUpdatedData (buildUpdatedData b) r).description = jsTrim d) ∧
    (b.description = none →
      (applyUpdatedData (buildUpdatedData b) r).description = r.description) := by
  refine ⟨?_, ?_, ?_, ?_, ?_, ?_, ?_⟩
  · rw [updateRecipe_snd env store id b r hfind, tagsPhase_recipes, stepsPhase_recipes,
      ingPhase_recipes]
    exact scalarsPhase_recipes_find? id b store r hfind
  · intro hc
    rcases hc with hc | hc <;> simp [applyUpdatedData, buildUpdatedData, hc]
  · intro hc
    rcases hc with hc | hc <;> simp [applyUpdatedData, buildUpdatedData, hc]
  · intro hc
    rcases hc with hc | hc <;> simp [applyUpdatedData, buildUpdatedData, hc]
  · intro hc
    rcases hc with hc | hc <;> simp [applyUpdatedData, buildUpdatedData, hc]
  · intro d hc
    simp [applyUpdatedData, buildUpdatedData, hc]
  · intro hc
    simp [applyUpdatedData, buildUpdatedData, hc]

/-- C6 witness: an update with `name: ""`, `prepTime: 0`, `servings: 0`,
`difficulty: 0` and `description: ""` leaves the four scalars untouched and
empties the description. -/
theorem updateRecipe_scalars_witness :
    storeOne.recipes.find? (fun x => x.id == 1) = some (mkRecipeRow 1) ∧
    (applyUpdatedData (buildUpdatedData falsyScalarsUpdate) (mkRecipeRow 1)).name =
      (mkRecipeRow 1).name ∧
    (applyUpdatedData (buildUpdatedData falsyScalarsUpdate) (mkRecipeRow 1)).prep_time =
      (mkRecipeRow 1).prep_time ∧
    (applyUpdatedData (buildUpdatedData falsyScalarsUpdate) (mkRecipeRow 1)).servings =
      (mkRecipeRow 1).servings ∧
    (applyUpdatedData (buildUpdatedData falsyScalarsUpdate) (mkRecipeRow 1)).difficulty =
      (mkRecipeRow 1).difficulty ∧
    (applyUpdatedData (buildUpdatedData falsyScalarsUpdate) (mkRecipeRow 1)).description =
      jsTrim "" := by
  have hfind : storeOne.recipes.find? (fun x => x.id == 1) = some (mkRecipeRow 1) := by
    decide
  have h := updateRecipe_scalars "production" storeOne 1 falsyScalarsUpdate
    (mkRecipeRow 1) hfind
  exact ⟨hfind, h.2.1 (Or.inr rfl), h.2.2.1 (Or.inr rfl), h.2.2.2.1 (Or.inr rfl),
    h.2.2.2.2.1 (Or.inr rfl), h.2.2.2.2.2.1 "" rfl⟩

/-- C7: when no recipe row matches the identity, the store's "no matching row"
outcome is translated into a 404 not-found response — by delete, and likewise
by get-by-id and update — never a silent success or an upstream failure; when
a row exists, delete removes the recipe row, relying on the cascading delete
for all dependents, and answers 200 with an empty success payload. -/
theorem deleteRecipe_notFound_and_cascade (env : String) (store : Store) (id : Nat) :
    (store.recipes.find? (fun x => x.id == id) = none →
      deleteRecipe env store id =
        (.err 404 (formatError "Recipe not found" 404 none env), store) ∧
      getRecipeById env store id = .err 404 (formatError "Recipe not found" 404 none env) ∧
      (∀ b, updateRecipe env store id b =
        (.err 404 (formatError "Recipe not found" 404 none env), store))) ∧
    (∀ r, store.recipes.find? (fun x => x.id == id) = some r →
      deleteRecipe env store id =
        (.ok 200 (formatSuccess (none : Option Aggregate) "Recipe deleted successfully" 200),
         deleteCascade store id) ∧
      (deleteCascade store id).recipes.find? (fun x => x.id == id) = none ∧
      fetchAggregate (deleteCascade store id) id = none ∧
      (deleteCascade store id).ingredients.filter (fun i => i.recipe_id == id) = [] ∧
      (deleteCascade store id).steps.filter (fun s => s.recipe_id == id) = [] ∧
      (deleteCascade store id).recipe_tags.filter (fun t => t.recipe_id == id) = []) := by
  constructor
  · intro h
    refine ⟨?_, ?_, ?_⟩
    · unfold deleteRecipe
      rw [h]
    · unfold getRecipeById
      rw [fetchAggregate_eq_none store id h]
    · intro b
      unfold updateRecipe
      rw [h]
  · intro r h
    refine ⟨?_, ?_, ?_, ?_, ?_, ?_⟩
    · unfold deleteRecipe
      rw [h]
    · exact find?_eq_none_filter_ne store.recipes id
    · exact fetchAggregate_eq_none _ _ (find?_eq_none_filter_ne store.recipes id)
    · unfold deleteCascade
      simp only [List.filter_filter]
      rw [List.filter_eq_nil_iff]
      intro i _
      cases hi : (i.recipe_id == id) with
      | false => simp [hi]
      | true => simp [hi, beq_iff_eq.mp hi]
    · unfold deleteCascade
      simp only [List.filter_filter]
      rw [List.filter_eq_nil_iff]
      intro i _
      cases hi : (i.recipe_id == id) with
      | false => simp [hi]
      | true => simp [hi, beq_iff_eq.mp hi]
    · unfold deleteCascade
      simp only [List.filter_filter]
      rw [List.filter_eq_nil_iff]
      intro i _
      cases hi : (i.recipe_id == id) with
      | false => simp [hi]
      | true => simp [hi, beq_iff_eq.mp hi]

/-- C7 witness: deleting the missing identity 9 from the one-recipe store gives
404; deleting the existing identity 1 gives 200 and removes the row and all
its dependents. -/
theorem deleteRecipe_notFound_and_cascade_witness :
    storeOne.recipes.find? (fun x => x.id == 9) = none ∧
    deleteRecipe "production" storeOne 9 =
      (.err 404 (formatError "Recipe not found" 404 none "production"), storeOne) ∧
    storeOne.recipes.find? (fun x => x.id == 1) = some (mkRecipeRow 1) ∧
    deleteRecipe "production" storeOne 1 =
      (.ok 200 (formatSuccess (none : Option Aggregate) "Recipe deleted successfully" 200),
       deleteCascade storeOne 1) ∧
    fetchAggregate (deleteCascade storeOne 1) 1 = none := by
  have h9 : storeOne.recipes.find? (fun x => x.id == 9) = none := by decide
  have h1 : storeOne.recipes.find? (fun x => x.id == 1) = some (mkRecipeRow 1) := by decide
  have ha := (deleteRecipe_notFound_and_cascade "production" storeOne 9).1 h9
  have hb := (deleteRecipe_notFound_and_cascade "production" storeOne 1).2 (mkRecipeRow 1) h1
  exact ⟨h9, ha.1, h1, hb.1, hb.2.2.1⟩

end Recetario
